import Mathlib

/-!
Verification development for the NPTEL-Management-Backend repository,
centred on the week-score CSV ingestion endpoint
(src/src/routes/student.js, router.post('/updateweekscore')).

The JavaScript source is embedded shallowly: every definition below is a
direct translation of a concrete expression of the source file, with machine
numbers modelled as rationals and the Mongo store modelled as a list of
student documents queried in order.
-/

namespace NptelBackend

/-! ### Generic string helpers (JS String.prototype methods) -/

/-- JS `s.toLowerCase()`: lower-case each character. -/
def lowerStr (s : String) : String :=
  String.mk (s.data.map Char.toLower)

/-- JS `s.toUpperCase()`: upper-case each character. -/
def upperStr (s : String) : String :=
  String.mk (s.data.map Char.toUpper)

/-- JS `s.trim()`: strip leading and trailing whitespace. -/
def trimStr (s : String) : String :=
  String.mk (((s.data.dropWhile Char.isWhitespace).reverse.dropWhile
    Char.isWhitespace).reverse)

/-- JS `s.split(sep)` for a one-character separator, over character lists:
separators delimit segments, and leading/trailing/adjacent separators yield
empty segments exactly as in JS. -/
def splitChar (sep : Char) : List Char → List (List Char)
  | [] => [[]]
  | c :: t =>
    if c = sep then [] :: splitChar sep t
    else
      match splitChar sep t with
      | [] => [[c]]
      | h :: r => (c :: h) :: r

/-- JS `s.split(sep)` on strings. -/
def splitStr (sep : Char) (s : String) : List String :=
  (splitChar sep s.data).map String.mk

/-- JS `haystack.includes(needle)` over explicit character lists. -/
def hasSubstr (pat : List Char) : List Char → Bool
  | [] => pat.isEmpty
  | c :: t => pat.isPrefixOf (c :: t) || hasSubstr pat t

/-- JS `s.includes(pat)` on strings. -/
def strContains (s pat : String) : Bool :=
  hasSubstr pat.toList s.toList

/-! ### JS numbers and `parseFloat`

`parseFloat` in the source is applied to score cells
(src/src/routes/student.js line 314: `score: parseFloat(row[index]) || 0`).
JS numbers are modelled by rationals plus the two non-finite outcomes
`parseFloat` can produce on a string: `NaN` and signed `Infinity`. -/

inductive JsNum where
  | nan : JsNum
  | inf (neg : Bool) : JsNum
  | num (q : ℚ) : JsNum
deriving DecidableEq, Repr

/-- Value of a digit run, most significant first. -/
def digitsVal (ds : List Char) : Nat :=
  ds.foldl (fun a c => 10 * a + (c.toNat - 48)) 0

/-- Exponent part of a JS decimal literal: `e`/`E`, optional sign, digits.
`parseFloat` ignores a dangling exponent marker with no digits. -/
def parseExp (l : List Char) : Int :=
  match l with
  | c :: t =>
    if c = 'e' ∨ c = 'E' then
      match t with
      | '-' :: t2 =>
        if (t2.takeWhile Char.isDigit).isEmpty then 0
        else -(digitsVal (t2.takeWhile Char.isDigit) : Int)
      | '+' :: t2 =>
        if (t2.takeWhile Char.isDigit).isEmpty then 0
        else (digitsVal (t2.takeWhile Char.isDigit) : Int)
      | _ =>
        if (t.takeWhile Char.isDigit).isEmpty then 0
        else (digitsVal (t.takeWhile Char.isDigit) : Int)
    else 0
  | [] => 0

/-- Body of `parseFloat` after leading whitespace: optional sign, then either
the literal `Infinity` or a decimal literal (integer digits, optional
fraction, optional exponent); trailing garbage is ignored; `NaN` when no
digits were consumed. -/
def parseFloatAux (l : List Char) : JsNum :=
  let signStrip : Bool × List Char :=
    match l with
    | '-' :: t => (true, t)
    | '+' :: t => (false, t)
    | _ => (false, l)
  let neg := signStrip.1
  let l1 := signStrip.2
  if ("Infinity".toList).isPrefixOf l1 then .inf neg
  else
    let ip := l1.takeWhile Char.isDigit
    let r1 := l1.drop ip.length
    let fp : List Char :=
      match r1 with
      | '.' :: t => t.takeWhile Char.isDigit
      | _ => []
    let r2 : List Char :=
      match r1 with
      | '.' :: t => t.drop (t.takeWhile Char.isDigit).length
      | _ => r1
    if ip.isEmpty && fp.isEmpty then .nan
    else
      let mant : ℚ := (digitsVal ip : ℚ) + (digitsVal fp : ℚ) / ((10 : ℚ) ^ fp.length)
      let v : ℚ := mant * (10 : ℚ) ^ (parseExp r2)
      .num (if neg then -v else v)

/-- JS `parseFloat(s)`: skip leading whitespace, then parse a decimal
(or `Infinity`) literal prefix. -/
def parseFloat (s : String) : JsNum :=
  parseFloatAux (s.toList.dropWhile Char.isWhitespace)

/-- JS `x || 0` applied to a number: the falsy numbers `NaN` and `0` yield
`0`, everything else passes through. -/
def jsOrZero : JsNum → JsNum
  | .nan => .num 0
  | x => x

/-! ### Header Normalizer
(src/src/routes/student.js lines 285-287:
`headers.map((header, index) => ({header, index})).filter(({header}) =>
 header.toLowerCase().includes('week') &&
 header.toLowerCase().includes('assignment'))`). -/

/-- The filter predicate of the week-score column selection. -/
def isWeekCol (h : String) : Bool :=
  strContains (lowerStr h) "week" && strContains (lowerStr h) "assignment"

/-- `map`+`filter` over the header row with a running index, starting at `n`. -/
def weekColsAux (n : Nat) : List String → List (String × Nat)
  | [] => []
  | h :: t =>
    if isWeekCol h then (h, n) :: weekColsAux (n + 1) t
    else weekColsAux (n + 1) t

/-- The `weekScoreColumns` selection of the source: each selected header is
kept verbatim, paired with its column index. -/
def weekScoreColumns (headers : List String) : List (String × Nat) :=
  weekColsAux 0 headers

/-! ### Filename Course-Resolver, first variant
(src/src/routes/student.js lines 244-261:
`filename.match(/ns_noc25_(cs|me|ce|ee|ece)(\d+)/i)` and
`courseId = 'noc25-' + branch + number`). -/

/-- Ordered alternation `(cs|me|ce|ee|ece)` followed by `\d+`: try each
branch code in order; a code succeeds only when it is a prefix and at least
one digit follows, exactly as the regex backtracks. -/
def tryBranches (brs : List String) (l : List Char) : Option (String × String)
  := match brs with
  | [] => none
  | b :: rest =>
    if b.toList.isPrefixOf l then
      if ((l.drop b.length).takeWhile Char.isDigit).isEmpty then
        tryBranches rest l
      else some (b, String.mk ((l.drop b.length).takeWhile Char.isDigit))
    else tryBranches rest l

/-- Left-to-right regex scan for `ns_noc25_` + branch + digits over the
lowercased filename. -/
def matchFrom : List Char → Option (String × String)
  | [] => none
  | c :: t =>
    if ("ns_noc25_".toList).isPrefixOf (c :: t) then
      match tryBranches ["cs", "me", "ce", "ee", "ece"] ((c :: t).drop 9) with
      | some r => some r
      | none => matchFrom t
    else matchFrom t

/-- `filename.match(/ns_noc25_(cs|me|ce|ee|ece)(\d+)/i)`, returning the two
capture groups (branch code already lowercased, as line 259 does). -/
def courseMatch (filename : String) : Option (String × String) :=
  matchFrom (lowerStr filename).toList

/-- Lines 259-261: `courseId = 'noc25-' + branch.toLowerCase() + number`. -/
def resolveCourseId (filename : String) : Option String :=
  (courseMatch filename).map (fun p => "noc25-" ++ p.1 ++ p.2)

/-! ### Filename Course-Resolver, second variant
(src/src/routes/student.js lines 592-600:
`cleanedFilename = filename.replace(/^ns_/, '')`,
`cleanedFilename.match(/noc\d+[-_](ce|cs)\d+/i)`,
`courseId = courseMatch[0].toLowerCase().replace('_', '-')`). -/

/-- `filename.replace(/^ns_/, '')`: strips one leading literal `ns_`
(the regex has no `i` flag, so the prefix test is case-sensitive). -/
def stripNs (s : String) : String :=
  if ("ns_".toList).isPrefixOf s.data then String.mk (s.data.drop 3) else s

/-- Attempt of `noc\d+[-_](ce|cs)\d+` at the current position, returning the
whole matched substring. -/
def tryNocAt (l : List Char) : Option (List Char) :=
  if ("noc".toList).isPrefixOf l then
    if ((l.drop 3).takeWhile Char.isDigit).isEmpty then none
    else
      match (l.drop 3).drop ((l.drop 3).takeWhile Char.isDigit).length with
      | sep :: r2 =>
        if sep = '-' ∨ sep = '_' then
          match tryBranches ["ce", "cs"] r2 with
          | some br =>
            some ("noc".toList ++ (l.drop 3).takeWhile Char.isDigit
                  ++ [sep] ++ br.1.toList ++ br.2.toList)
          | none => none
        else none
      | [] => none
  else none

/-- Left-to-right scan for the second variant's pattern. -/
def matchFrom2 : List Char → Option (List Char)
  | [] => none
  | c :: t =>
    match tryNocAt (c :: t) with
    | some m => some m
    | none => matchFrom2 t

/-- The whole match `courseMatch[0]` of the second variant, lowercased. -/
def courseMatch2 (filename : String) : Option (List Char) :=
  matchFrom2 (lowerStr (stripNs filename)).toList

/-- JS `String.prototype.replace` with a string pattern replaces only the
first occurrence: `'noc25_cs52'.replace('_', '-')`. -/
def replaceFirstUnderscore : List Char → List Char
  | [] => []
  | c :: t => if c = '_' then '-' :: t else c :: replaceFirstUnderscore t

/-- Line 600: `courseId = courseMatch[0].toLowerCase().replace('_', '-')`. -/
def resolveCourseId2 (filename : String) : Option String :=
  (courseMatch2 filename).map (fun m => String.mk (replaceFirstUnderscore m))

/-! ### Data model (src/src/models/Student.js) -/

/-- An entry of a course's `results` array: `{week, score}` as written by the
week-score update (`submittedAt` is a store-side default and carries no
ingestion logic). -/
structure WeekResult where
  week : String
  score : JsNum
deriving DecidableEq, Repr

/-- An entry of `Student.courses`. -/
structure CourseEnrollment where
  courseId : String
  courseName : String
  subjectMentor : String
  results : List WeekResult
deriving DecidableEq, Repr

/-- A student document of the Mongo collection. -/
structure Student where
  name : String
  rollNumber : String
  branch : String
  year : String
  email : String
  courses : List CourseEnrollment
deriving DecidableEq, Repr

/-! ### Student Matcher and Score Merger
(src/src/routes/student.js lines 320-332). -/

/-- The row-level failure payload: the source throws
`{studentId: row[3], error: message}`; the two thrown messages are
`Missing email or roll number: ...` and
`Student not found or course not enrolled: ...`. -/
inductive FailReason where
  | missingIdentity : FailReason
  | studentNotFound : FailReason
deriving DecidableEq, Repr

/-- The `{studentId, error}` object rejected rows carry. -/
structure RowError where
  studentId : String
  reason : FailReason
deriving DecidableEq, Repr

/-- The filter of the `findOneAndUpdate` call, lines 321-325:
`{$or: [{email}, {rollNumber}], 'courses.courseId': courseId,
  branch: branch.toUpperCase()}` — all equalities exact. -/
def matchesWeekQuery (email roll cid brU : String) (s : Student) : Bool :=
  (s.email == email || s.rollNumber == roll)
    && s.courses.any (fun c => c.courseId == cid)
    && s.branch == brU

/-- Mongo positional update `{$set: {'courses.$.results': results}}`: the
first enrollment whose `courseId` equals the queried one has its `results`
replaced wholesale; nothing is ever appended. -/
def setCourseResults (cid : String) (rs : List WeekResult) : List CourseEnrollment → List CourseEnrollment
  | [] => []
  | c :: cs =>
    if c.courseId == cid then { c with results := rs } :: cs
    else c :: setCourseResults cid rs cs

/-- `Model.findOneAndUpdate(query, update, {new: true})` over an in-order
document list: the first matching document is updated and returned. -/
def findOneAndUpdate (q : Student → Bool) (u : Student → Student) : List Student → Option Student × List Student
  | [] => (none, [])
  | s :: ss =>
    if q s then (some (u s), u s :: ss)
    else ((findOneAndUpdate q u ss).1, s :: (findOneAndUpdate q u ss).2)

/-- The whole `Student.findOneAndUpdate` call of the week-score row handler. -/
def mergeWeekScores (store : List Student) (email roll cid brU : String) (rs : List WeekResult) : Option Student × List Student :=
  findOneAndUpdate (matchesWeekQuery email roll cid brU)
    (fun s => { s with courses := setCourseResults cid rs s.courses }) store

/-- Lines 312-315: `results = weekScoreColumns.map(({header, index}) =>
({week: header, score: parseFloat(row[index]) || 0}))`. -/
def buildResults (wc : List (String × Nat)) (row : List String) : List WeekResult :=
  wc.map (fun p => { week := p.1, score := jsOrZero (parseFloat (row.getD p.2 "")) })

/-- One row of the week-score batch, lines 302-343: identity read from the
fixed cells `row[2]` (email) and `row[3]` (roll number), rejection when
either is falsy, then the single matcher+merger query; the pair returns the
row outcome and the store after the row's write. -/
def processRow (store : List Student) (cid brU : String) (wc : List (String × Nat)) (row : List String) : Except RowError Student × List Student :=
  if row.getD 2 "" == "" || row.getD 3 "" == "" then
    (.error ⟨row.getD 3 "", .missingIdentity⟩, store)
  else
    match mergeWeekScores store (row.getD 2 "") (row.getD 3 "") cid brU (buildResults wc row) with
    | (some st, store2) => (.ok st, store2)
    | (none, store2) => (.error ⟨row.getD 3 "", .studentNotFound⟩, store2)

/-! ### Batch Reconciler
(src/src/routes/student.js lines 275-365). -/

/-- The three batch-fatal rejections of the endpoint that occur after the
file is present: invalid filename (line 246), too few rows (line 276), no
week-score columns (line 291). -/
inductive BatchFatal where
  | unresolvableFilename : BatchFatal
  | emptyOrMalformedInput : BatchFatal
  | noScoreColumnsFound : BatchFatal
deriving DecidableEq, Repr

/-- The JSON batch report of lines 358-365. -/
structure BatchReport where
  courseId : String
  branch : String
  successful : Nat
  failed : Nat
  errors : List RowError
deriving DecidableEq, Repr

/-- Line 275: `fileContent.split('\n').map(row =>
row.split(',').map(cell => cell.trim()))`. -/
def parseRows (content : String) : List (List String) :=
  (splitStr '\n' content).map (fun r => (splitStr ',' r).map trimStr)

/-- Lines 300-301: `rows.slice(1).filter(row => row.length >= headers.length)`
— the data rows that survive the short-row filter. -/
def retainedRows (content : String) : List (List String) :=
  ((parseRows content).drop 1).filter
    (fun r => ((parseRows content).headD []).length ≤ r.length)

/-- `Promise.allSettled` over the per-row handlers: every row yields exactly
one settled outcome; each row's single store write is applied before the
next row's read (per-document atomicity of the store). -/
def processBatch (cid brU : String) (wc : List (String × Nat)) : List Student → List (List String) → List (Except RowError Student) × List Student
  | store, [] => ([], store)
  | store, row :: rest =>
    ((processRow store cid brU wc row).1
        :: (processBatch cid brU wc (processRow store cid brU wc row).2 rest).1,
      (processBatch cid brU wc (processRow store cid brU wc row).2 rest).2)

/-- `r.status === 'fulfilled'` on a settled row outcome. -/
def exceptOk {ε α : Type} : Except ε α → Bool
  | .ok _ => true
  | .error _ => false

/-- `failed.map(f => f.reason)`: the rejection payloads in row order. -/
def errorsOf (os : List (Except RowError Student)) : List RowError :=
  os.filterMap (fun o => match o with | .error e => some e | .ok _ => none)

/-- Lines 347-365: the response body built from the settled outcomes. -/
def mkReport (cid brU : String) (os : List (Except RowError Student)) : BatchReport :=
  { courseId := cid, branch := brU,
    successful := (os.filter exceptOk).length,
    failed := (os.filter (fun o => !exceptOk o)).length,
    errors := errorsOf os }

/-- The `/updateweekscore` endpoint (first variant, lines 231-365) from the
point where a file is present: resolve the course from the filename, split
the CSV, reject short inputs and header rows without week columns, then
settle every retained data row and report. -/
def updateWeekScore (store : List Student) (filename content : String) : Except BatchFatal (BatchReport × List Student) :=
  match courseMatch filename with
  | none => .error .unresolvableFilename
  | some br =>
    if (parseRows content).length < 2 then .error .emptyOrMalformedInput
    else
      if (weekScoreColumns ((parseRows content).headD [])).isEmpty then
        .error .noScoreColumnsFound
      else
        .ok (mkReport ("noc25-" ++ br.1 ++ br.2) (upperStr br.1)
              (processBatch ("noc25-" ++ br.1 ++ br.2) (upperStr br.1)
                (weekScoreColumns ((parseRows content).headD []))
                store (retainedRows content)).1,
            (processBatch ("noc25-" ++ br.1 ++ br.2) (upperStr br.1)
              (weekScoreColumns ((parseRows content).headD []))
              store (retainedRows content)).2)

/-! ### Projections used to state properties -/

instance {ε α : Type} [DecidableEq ε] [DecidableEq α] : DecidableEq (Except ε α)
  | .ok a, .ok b =>
    if h : a = b then .isTrue (by rw [h]) else .isFalse (fun hc => h (Except.ok.inj hc))
  | .ok _, .error _ => .isFalse (fun hc => Except.noConfusion hc)
  | .error _, .ok _ => .isFalse (fun hc => Except.noConfusion hc)
  | .error a, .error b =>
    if h : a = b then .isTrue (by rw [h]) else .isFalse (fun hc => h (Except.error.inj hc))

/-- The settled status of a row outcome: `none` for a fulfilled row, the
rejection payload for a rejected one. -/
def rowStatus : Except RowError Student → Option RowError
  | .ok _ => none
  | .error e => some e

/-! ### Concrete documents and inputs used in witnesses and counterexamples -/

/-- An enrollment in exactly the resolved course id. -/
def cexEnroll1 : CourseEnrollment :=
  { courseId := "noc25-cs52", courseName := "C", subjectMentor := "M", results := [] }

/-- A stored student whose email differs from a row's email only in case. -/
def cexStudent1 : Student :=
  { name := "N", rollNumber := "R1", branch := "CS", year := "3",
    email := "A@B.com", courses := [cexEnroll1] }

/-- An enrollment whose course id differs from the resolved one only in case. -/
def cexEnroll2 : CourseEnrollment :=
  { courseId := "NOC25-CS52", courseName := "C", subjectMentor := "M", results := [] }

/-- A stored student enrolled in the course only up to case of the id. -/
def cexStudent2 : Student :=
  { name := "N", rollNumber := "R2", branch := "CS", year := "3",
    email := "c@d.e", courses := [cexEnroll2] }

/-- A stored student findable by exact email. -/
def cexStudent3 : Student :=
  { name := "N", rollNumber := "R3", branch := "CS", year := "3",
    email := "p@q.r", courses := [cexEnroll1] }

/-- The report produced by the demo batch of the count-invariant witness. -/
def demoReport : BatchReport :=
  { courseId := "noc25-cs52", branch := "CS", successful := 0, failed := 1,
    errors := [{ studentId := "R1", reason := .studentNotFound }] }

/-! ### Helper lemmas -/

theorem foau_fst_isSome (q : Student → Bool) (u : Student → Student) :
    ∀ store : List Student, ((findOneAndUpdate q u store).1).isSome = store.any q
  | [] => rfl
  | s :: ss => by
    by_cases h : q s
    · simp [findOneAndUpdate, h]
    · simp [findOneAndUpdate, h, foau_fst_isSome q u ss]

theorem rowStatus_eq_some (o : Except RowError Student) (e : RowError) :
    rowStatus o = some e ↔ o = .error e := by
  cases o <;> simp [rowStatus]

theorem exceptOk_eq_isNone (o : Except RowError Student) :
    exceptOk o = (rowStatus o).isNone := by
  cases o <;> rfl

theorem processRow_status (store : List Student) (cid brU : String)
    (wc : List (String × Nat)) (row : List String) :
    rowStatus (processRow store cid brU wc row).1 =
      if row.getD 2 "" == "" || row.getD 3 "" == "" then
        some ⟨row.getD 3 "", .missingIdentity⟩
      else if store.any (matchesWeekQuery (row.getD 2 "") (row.getD 3 "") cid brU) then
        none
      else some ⟨row.getD 3 "", .studentNotFound⟩ := by
  cases hid : (row.getD 2 "" == "" || row.getD 3 "" == "") with
  | true => simp_all [processRow, rowStatus]
  | false =>
    rcases hm : mergeWeekScores store (row.getD 2 "") (row.getD 3 "") cid brU
        (buildResults wc row) with ⟨o, st2⟩
    have hs : o.isSome
        = store.any (matchesWeekQuery (row.getD 2 "") (row.getD 3 "") cid brU) := by
      have h1 := foau_fst_isSome
        (matchesWeekQuery (row.getD 2 "") (row.getD 3 "") cid brU)
        (fun s => { s with courses := setCourseResults cid (buildResults wc row) s.courses })
        store
      unfold mergeWeekScores at hm
      rw [hm] at h1
      exact h1
    cases o with
    | some st =>
      have hany : store.any (matchesWeekQuery (row.getD 2 "") (row.getD 3 "") cid brU)
          = true := by rw [← hs]; rfl
      simp_all [processRow, rowStatus]
    | none =>
      have hany : store.any (matchesWeekQuery (row.getD 2 "") (row.getD 3 "") cid brU)
          = false := by rw [← hs]; rfl
      simp_all [processRow, rowStatus]

/-! ### Claims C10, C7, C1, C8 -/

/-- Claim C10: in the week-score update, the identity used for matching a
row is always the cell at fixed index 2 (email) and the cell at fixed index
3 (roll number); the settled status of the row is a function of those two
cells and the store alone — the header-derived week-column list does not
enter it, so identity columns are never located by header name. -/
theorem weekScore_identity_from_fixed_columns (store : List Student) (cid brU : String)
    (wc : List (String × Nat)) (row : List String) :
    rowStatus (processRow store cid brU wc row).1 =
      if row.getD 2 "" == "" || row.getD 3 "" == "" then
        some ⟨row.getD 3 "", .missingIdentity⟩
      else if store.any (matchesWeekQuery (row.getD 2 "") (row.getD 3 "") cid brU) then
        none
      else some ⟨row.getD 3 "", .studentNotFound⟩ :=
  processRow_status store cid brU wc row

/-- Claim C7 counterexample: a row carrying an email but an empty roll
number is rejected with the missing-identity error even though a stored
student with exactly that email exists, contradicting the claim that a row
with exactly one identifier proceeds to student matching. -/
theorem missingIdentity_single_identifier_cex :
    (processRow [cexStudent3] "noc25-cs52" "CS" [("Week 1 Assignment", 4)]
        ["1", "N", "p@q.r", "", "7"]).1
      = .error ⟨"", .missingIdentity⟩
    ∧ cexStudent3.email = "p@q.r" := by
  decide

/-- Claim C7 (amended): the per-row identity check fails with
MissingIdentity if and only if at least one of the two cells — the email at
index 2 or the roll number at index 3 — is absent or empty; both must be
present for the row to proceed to student matching. -/
theorem missingIdentity_iff_either_absent (store : List Student) (cid brU : String)
    (wc : List (String × Nat)) (row : List String) :
    (processRow store cid brU wc row).1 = .error ⟨row.getD 3 "", .missingIdentity⟩ ↔
      (row.getD 2 "" = "" ∨ row.getD 3 "" = "") := by
  cases hid : (row.getD 2 "" == "" || row.getD 3 "" == "") with
  | true =>
    rw [← rowStatus_eq_some, processRow_status, hid]
    simp_all
  | false =>
    rw [← rowStatus_eq_some, processRow_status, hid]
    cases hany : store.any (matchesWeekQuery (row.getD 2 "") (row.getD 3 "") cid brU) <;>
      simp_all

/-- Claim C1 counterexample: the matcher has no case-insensitive fallback.
The stored student's email equals the row's email up to case and the student
is enrolled in the course, yet the row is rejected with StudentNotFound —
whereas the claimed three-step cascade would match at step 2. -/
theorem studentMatcher_no_fallback_cex :
    (processRow [cexStudent1] "noc25-cs52" "CS" [("Week 1 Assignment", 4)]
        ["1", "N", "a@b.com", "R9", "7"]).1
      = .error ⟨"R9", .studentNotFound⟩
    ∧ lowerStr cexStudent1.email = "a@b.com"
    ∧ cexStudent1.courses.any (fun c => c.courseId == "noc25-cs52") = true := by
  decide

/-- Claim C1 (amended): for a row with both identifiers present, the Student
Matcher performs one single query — exact equality on email OR exact
equality on roll number, conjoined with exact enrollment in the resolved
course id and branch equal to the uppercased branch code — and it signals
StudentNotFound exactly when no stored student satisfies that one query;
there is no case-insensitive step and no email-local-part prefix step. -/
theorem studentMatcher_single_exact_query (store : List Student) (cid brU : String)
    (wc : List (String × Nat)) (row : List String)
    (he : ¬ row.getD 2 "" = "") (hr : ¬ row.getD 3 "" = "") :
    exceptOk (processRow store cid brU wc row).1 =
      store.any (matchesWeekQuery (row.getD 2 "") (row.getD 3 "") cid brU) ∧
    ((processRow store cid brU wc row).1 = .error ⟨row.getD 3 "", .studentNotFound⟩ ↔
      store.any (matchesWeekQuery (row.getD 2 "") (row.getD 3 "") cid brU) = false) := by
  have hid : (row.getD 2 "" == "" || row.getD 3 "" == "") = false := by
    simp_all
  constructor
  · rw [exceptOk_eq_isNone, processRow_status, hid]
    cases hany : store.any (matchesWeekQuery (row.getD 2 "") (row.getD 3 "") cid brU) <;>
      simp_all
  · rw [← rowStatus_eq_some, processRow_status, hid]
    cases hany : store.any (matchesWeekQuery (row.getD 2 "") (row.getD 3 "") cid brU) <;>
      simp_all

/-- Claim C1 (amended) witness at a concrete store and row. -/
theorem studentMatcher_single_exact_query_witness :
    exceptOk (processRow [cexStudent1] "noc25-cs52" "CS" [("Week 1 Assignment", 4)]
        ["1", "N", "a@b.com", "R9", "7"]).1 =
      [cexStudent1].any (matchesWeekQuery (["1", "N", "a@b.com", "R9", "7"].getD 2 "")
        (["1", "N", "a@b.com", "R9", "7"].getD 3 "") "noc25-cs52" "CS") ∧
    ((processRow [cexStudent1] "noc25-cs52" "CS" [("Week 1 Assignment", 4)]
        ["1", "N", "a@b.com", "R9", "7"]).1
      = .error ⟨["1", "N", "a@b.com", "R9", "7"].getD 3 "", .studentNotFound⟩ ↔
      [cexStudent1].any (matchesWeekQuery (["1", "N", "a@b.com", "R9", "7"].getD 2 "")
        (["1", "N", "a@b.com", "R9", "7"].getD 3 "") "noc25-cs52" "CS") = false) :=
  studentMatcher_single_exact_query [cexStudent1] "noc25-cs52" "CS"
    [("Week 1 Assignment", 4)] ["1", "N", "a@b.com", "R9", "7"]
    (by decide) (by decide)

/-- Claim C8: a score cell that does not parse as a number yields a
WeekResult entry with score 0 in the results list built for the row, and the
settled status of the row is unaffected by score cells — the row is still
processed and counted as usual. -/
theorem malformed_score_yields_zero (store : List Student) (cid brU : String)
    (wc : List (String × Nat)) (row : List String) (j i : Nat) (hname : String)
    (hj : wc[j]? = some (hname, i))
    (hp : parseFloat (row.getD i "") = JsNum.nan) :
    (buildResults wc row)[j]? = some ⟨hname, JsNum.num 0⟩ ∧
    exceptOk (processRow store cid brU wc row).1 =
      (!(row.getD 2 "" == "") && !(row.getD 3 "" == "")
        && store.any (matchesWeekQuery (row.getD 2 "") (row.getD 3 "") cid brU)) := by
  constructor
  · have hz : jsOrZero (parseFloat (row.getD i "")) = JsNum.num 0 := by
      rw [hp]
      rfl
    rw [buildResults, List.getElem?_map, hj, Option.map_some']
    show some (⟨hname, jsOrZero (parseFloat (row.getD i ""))⟩ : WeekResult) = _
    rw [hz]
  · rw [exceptOk_eq_isNone, processRow_status]
    cases h2 : (row.getD 2 "" == "") <;> cases h3 : (row.getD 3 "" == "") <;>
      cases hany : store.any (matchesWeekQuery (row.getD 2 "") (row.getD 3 "") cid brU) <;>
        simp_all

/-- Claim C8 witness: the cell "oops" at the selected column index 4 parses
as NaN and the built entry carries score 0. -/
theorem malformed_score_yields_zero_witness :
    (buildResults [("Week 1 Assignment", 4)] ["a", "b", "x@y.z", "R1", "oops"])[0]?
      = some ⟨"Week 1 Assignment", JsNum.num 0⟩ ∧
    exceptOk (processRow [] "noc25-cs52" "CS" [("Week 1 Assignment", 4)]
        ["a", "b", "x@y.z", "R1", "oops"]).1 =
      (!(["a", "b", "x@y.z", "R1", "oops"].getD 2 "" == "")
        && !(["a", "b", "x@y.z", "R1", "oops"].getD 3 "" == "")
        && List.any [] (matchesWeekQuery (["a", "b", "x@y.z", "R1", "oops"].getD 2 "")
              (["a", "b", "x@y.z", "R1", "oops"].getD 3 "") "noc25-cs52" "CS")) :=
  malformed_score_yields_zero [] "noc25-cs52" "CS" [("Week 1 Assignment", 4)]
    ["a", "b", "x@y.z", "R1", "oops"] 0 4 "Week 1 Assignment" (by decide) (by decide)

/-! ### Batch counting lemmas and claims C5, C6 -/

theorem length_filter_not_add {α : Type} (p : α → Bool) (l : List α) :
    (l.filter p).length + (l.filter (fun a => !p a)).length = l.length := by
  induction l with
  | nil => rfl
  | cons a t ih => cases h : p a <;> simp [h] <;> omega

theorem errorsOf_length (os : List (Except RowError Student)) :
    (errorsOf os).length = (os.filter (fun o => !exceptOk o)).length := by
  induction os with
  | nil => rfl
  | cons o t ih => cases o <;> simp [errorsOf, exceptOk] at ih ⊢ <;> omega

theorem processBatch_fst_length (cid brU : String) (wc : List (String × Nat)) :
    ∀ (store : List Student) (rows : List (List String)),
      ((processBatch cid brU wc store rows).1).length = rows.length
  | _, [] => rfl
  | store, row :: rest => by
    simp [processBatch,
      processBatch_fst_length cid brU wc (processRow store cid brU wc row).2 rest]

theorem parseRows_length (content : String) :
    (parseRows content).length = (splitStr '\n' content).length := by
  simp [parseRows]

/-- Claim C5: for every ingestion batch that passes the batch-fatal checks,
the report satisfies successful + failed = number of data rows retained
after row-parser filtering, and every failed row is recorded in the error
list — rows are settled independently, never fail-fast. -/
theorem batch_row_count_invariant (store : List Student) (fn content : String)
    (rep : BatchReport) (store2 : List Student)
    (h : updateWeekScore store fn content = .ok (rep, store2)) :
    rep.successful + rep.failed = (retainedRows content).length ∧
    rep.errors.length = rep.failed := by
  unfold updateWeekScore at h
  cases hcm : courseMatch fn with
  | none => rw [hcm] at h; exact absurd h (by simp)
  | some br =>
    simp only [hcm] at h
    by_cases h2 : (parseRows content).length < 2
    · rw [if_pos h2] at h; exact absurd h (by simp)
    · rw [if_neg h2] at h
      by_cases h3 : (weekScoreColumns ((parseRows content).headD [])).isEmpty = true
      · rw [if_pos h3] at h; exact absurd h (by simp)
      · rw [if_neg h3] at h
        have h' := Except.ok.inj h
        have hrep : rep = mkReport ("noc25-" ++ br.1 ++ br.2) (upperStr br.1)
            (processBatch ("noc25-" ++ br.1 ++ br.2) (upperStr br.1)
              (weekScoreColumns ((parseRows content).headD []))
              store (retainedRows content)).1 := congrArg Prod.fst h' |>.symm
        rw [hrep]
        constructor
        · simp only [mkReport]
          rw [length_filter_not_add]
          exact processBatch_fst_length _ _ _ _ _
        · simp only [mkReport]
          exact errorsOf_length _

/-- Claim C5 witness: a one-row batch whose row fails to match still counts
as one settled row. -/
theorem batch_row_count_invariant_witness :
    demoReport.successful + demoReport.failed
      = (retainedRows "h1,h2,Email,Roll,Week 1 Assignment\na,b,x@y.z,R1,5").length ∧
    demoReport.errors.length = demoReport.failed :=
  batch_row_count_invariant [] "ns_noc25_cs52.csv"
    "h1,h2,Email,Roll,Week 1 Assignment\na,b,x@y.z,R1,5" demoReport [] (by decide)

/-- Claim C6 counterexample: a file consisting of exactly one header row and
a trailing newline leaves 0 data rows after the short-row filter (fewer than
2 rows remain), yet the endpoint does not fail with EmptyOrMalformedInput —
it returns a successful empty batch, because the row-count check runs on the
raw newline split before any filtering. -/
theorem emptyInput_header_only_cex :
    updateWeekScore [] "ns_noc25_cs52.csv" "a,b,Week 1 Assignment\n"
      = .ok ({ courseId := "noc25-cs52", branch := "CS", successful := 0,
               failed := 0, errors := [] }, [])
    ∧ (retainedRows "a,b,Week 1 Assignment\n").length < 2 := by
  decide

/-- Claim C6 (amended): once the filename resolves, the ingestion fails with
EmptyOrMalformedInput exactly when splitting the raw file on newlines yields
fewer than 2 rows — the check precedes the short-row filtering, so a
header-only file with a trailing newline is not rejected. -/
theorem emptyInput_checked_on_raw_split (store : List Student) (fn content : String)
    (p : String × String) (hc : courseMatch fn = some p) :
    (updateWeekScore store fn content = .error .emptyOrMalformedInput ↔
      (splitStr '\n' content).length < 2) := by
  unfold updateWeekScore
  simp only [hc]
  have hl : (splitStr '\n' content).length = (parseRows content).length :=
    (parseRows_length content).symm
  by_cases h2 : (parseRows content).length < 2
  · rw [if_pos h2]
    simp [hl, h2]
  · rw [if_neg h2]
    by_cases h3 : (weekScoreColumns ((parseRows content).headD [])).isEmpty = true
    · rw [if_pos h3]; simp [hl, h2]
    · rw [if_neg h3]; simp [hl, h2]

/-- Claim C6 (amended) witness: a single-row file without a newline is
rejected by the raw-split check. -/
theorem emptyInput_checked_on_raw_split_witness :
    (updateWeekScore [] "ns_noc25_cs52.csv" "x" = .error .emptyOrMalformedInput ↔
      (splitStr '\n' "x").length < 2) :=
  emptyInput_checked_on_raw_split [] "ns_noc25_cs52.csv" "x" ("cs", "52") (by decide)

/-! ### Score merger lemmas and claims C9, C2 -/

theorem setCourseResults_idem (cid : String) (rs : List WeekResult) :
    ∀ cs : List CourseEnrollment,
      setCourseResults cid rs (setCourseResults cid rs cs) = setCourseResults cid rs cs
  | [] => rfl
  | c :: cs => by
    by_cases h : (c.courseId == cid) = true
    · simp [setCourseResults, h]
    · simp [setCourseResults, h, setCourseResults_idem cid rs cs]

theorem setCourseResults_any (cid : String) (rs : List WeekResult) :
    ∀ cs : List CourseEnrollment,
      (setCourseResults cid rs cs).any (fun c => c.courseId == cid)
        = cs.any (fun c => c.courseId == cid)
  | [] => rfl
  | c :: cs => by
    by_cases h : (c.courseId == cid) = true
    · simp [setCourseResults, h]
    · simp [setCourseResults, h, setCourseResults_any cid rs cs]

theorem matchesWeekQuery_update (e r cid brU : String) (rs : List WeekResult) (s : Student) :
    matchesWeekQuery e r cid brU { s with courses := setCourseResults cid rs s.courses }
      = matchesWeekQuery e r cid brU s := by
  simp [matchesWeekQuery, setCourseResults_any]

theorem foau_idem (q : Student → Bool) (u : Student → Student)
    (hq : ∀ s, q (u s) = q s) (hu : ∀ s, u (u s) = u s) :
    ∀ store : List Student,
      (findOneAndUpdate q u (findOneAndUpdate q u store).2).2
        = (findOneAndUpdate q u store).2
  | [] => rfl
  | s :: ss => by
    by_cases h : q s = true
    · simp [findOneAndUpdate, h, hq, hu]
    · simp [findOneAndUpdate, h, foau_idem q u hq hu ss]

/-- Claim C9: the score merge is idempotent — applying the same
(courseId, results) merge twice to the same store leaves exactly the store
produced by applying it once. -/
theorem scoreMerge_idempotent (store : List Student) (email roll cid brU : String)
    (rs : List WeekResult) :
    (mergeWeekScores (mergeWeekScores store email roll cid brU rs).2
        email roll cid brU rs).2
      = (mergeWeekScores store email roll cid brU rs).2 := by
  unfold mergeWeekScores
  exact foau_idem _ _
    (fun s => matchesWeekQuery_update email roll cid brU rs s)
    (fun s => by simp [setCourseResults_idem]) store

/-- Claim C2 counterexample: enrollment matching is exact, not
case-insensitive, and no enrollment is ever appended: the student enrolled
as "NOC25-CS52" is not matched for the resolved id "noc25-cs52" — the row
fails with StudentNotFound and the store is returned unchanged. -/
theorem scoreMerger_case_append_cex :
    processRow [cexStudent2] "noc25-cs52" "CS" [("Week 1 Assignment", 4)]
        ["1", "N", "c@d.e", "R2", "5"]
      = (.error ⟨"R2", .studentNotFound⟩, [cexStudent2])
    ∧ cexStudent2.courses.map (fun c => lowerStr c.courseId) = ["noc25-cs52"] := by
  decide

/-- Claim C2 (amended): the Score Merger replaces wholesale the results of
the first enrollment whose courseId equals the resolved id exactly
(case-sensitively); it never appends or removes enrollments (length is
preserved), and a student none of whose enrollments matches exactly fails
the match query outright, so such a row is recorded as StudentNotFound
instead of receiving a new enrollment. -/
theorem scoreMerger_exact_replace_only (cid : String) (rs : List WeekResult)
    (c : CourseEnrollment) (cs : List CourseEnrollment)
    (e r brU : String) (s : Student) :
    (setCourseResults cid rs cs).length = cs.length ∧
    setCourseResults cid rs (c :: cs)
      = (if c.courseId == cid then { c with results := rs } :: cs
         else c :: setCourseResults cid rs cs) ∧
    (s.courses.all (fun x => !(x.courseId == cid)) = true →
      matchesWeekQuery e r cid brU s = false) := by
  refine ⟨?_, rfl, ?_⟩
  · induction cs with
    | nil => rfl
    | cons a t ih =>
      by_cases h : (a.courseId == cid) = true <;> simp [setCourseResults, h, ih]
  · intro hall
    have hany : s.courses.any (fun x => x.courseId == cid) = false := by
      simp only [List.all_eq_true] at hall
      simp only [List.any_eq_false]
      intro x hx
      simpa using hall x hx
    simp [matchesWeekQuery, hany]

/-- Claim C2 (amended) witness: the case-differing enrollment fails the
match query. -/
theorem scoreMerger_exact_replace_only_witness :
    cexStudent2.courses.all (fun x => !(x.courseId == "noc25-cs52")) = true ∧
    matchesWeekQuery "c@d.e" "R2" "noc25-cs52" "CS" cexStudent2 = false :=
  ⟨by decide,
    (scoreMerger_exact_replace_only "noc25-cs52" [] cexEnroll2 [] "c@d.e" "R2" "CS"
      cexStudent2).2.2 (by decide)⟩

/-! ### Header selection characterization and claim C3 -/

theorem weekColsAux_mem (h : String) (i : Nat) :
    ∀ (hs : List String) (n : Nat),
      ((h, i) ∈ weekColsAux n hs ↔
        (n ≤ i ∧ hs[i - n]? = some h ∧ isWeekCol h = true))
  | [], n => by simp [weekColsAux]
  | h0 :: t, n => by
    have ih := weekColsAux_mem h i t (n + 1)
    by_cases hw : isWeekCol h0 = true
    · have hred : weekColsAux n (h0 :: t) = (h0, n) :: weekColsAux (n + 1) t := by
        simp [weekColsAux, hw]
      rw [hred]
      simp only [List.mem_cons, ih]
      constructor
      · rintro (heq | ⟨hn1, hget, hwc⟩)
        · have hh : h = h0 := congrArg Prod.fst heq
          have hi : i = n := congrArg Prod.snd heq
          subst hh; subst hi
          simp [hw]
        · refine ⟨by omega, ?_, hwc⟩
          have hidx : i - n = (i - (n + 1)) + 1 := by omega
          rw [hidx, List.getElem?_cons_succ]
          exact hget
      · rintro ⟨hn, hget, hwc⟩
        rcases Nat.eq_or_lt_of_le hn with heq | hlt
        · subst heq
          simp only [Nat.sub_self, List.getElem?_cons_zero, Option.some.injEq] at hget
          exact Or.inl (by rw [hget])
        · refine Or.inr ⟨by omega, ?_, hwc⟩
          have hidx : i - n = (i - (n + 1)) + 1 := by omega
          rw [hidx, List.getElem?_cons_succ] at hget
          exact hget
    · have hred : weekColsAux n (h0 :: t) = weekColsAux (n + 1) t := by
        simp [weekColsAux, hw]
      rw [hred, ih]
      constructor
      · rintro ⟨hn1, hget, hwc⟩
        refine ⟨by omega, ?_, hwc⟩
        have hidx : i - n = (i - (n + 1)) + 1 := by omega
        rw [hidx, List.getElem?_cons_succ]
        exact hget
      · rintro ⟨hn, hget, hwc⟩
        rcases Nat.eq_or_lt_of_le hn with heq | hlt
        · subst heq
          simp only [Nat.sub_self, List.getElem?_cons_zero, Option.some.injEq] at hget
          have hw0 : isWeekCol h0 = true := by rw [hget]; exact hwc
          exact absurd hw0 hw
        · refine ⟨by omega, ?_, hwc⟩
          have hidx : i - n = (i - (n + 1)) + 1 := by omega
          rw [hidx, List.getElem?_cons_succ] at hget
          exact hget

/-- Claim C3 counterexample: "Week 01" is not selected at all (it lacks the
substring "assignment"), and two headers denoting week 1 that are both
selected keep distinct verbatim labels instead of one canonical
"Week 1 Assignment" label. -/
theorem headerNormalizer_cex :
    weekScoreColumns ["Week 01", "Week 1 Assignment", "Week 01 Assignment"]
      = [("Week 1 Assignment", 1), ("Week 01 Assignment", 2)]
    ∧ ("Week 01 Assignment" : String) ≠ "Week 1 Assignment" := by
  decide

/-- Claim C3 (amended): a header is selected as a week-score column exactly
when its lowercased text contains both the substring "week" and the
substring "assignment"; the emitted label is the raw header verbatim —
there is no zero-padding stripping and no canonical relabeling. -/
theorem headerSelect_verbatim (headers : List String) (h : String) (i : Nat) :
    ((h, i) ∈ weekScoreColumns headers ↔
      (headers[i]? = some h ∧
        strContains (lowerStr h) "week" = true ∧
        strContains (lowerStr h) "assignment" = true)) := by
  have hm := weekColsAux_mem h i headers 0
  simpa [weekScoreColumns, isWeekCol, Bool.and_eq_true] using hm

/-! ### Filename resolver soundness and claim C4 -/

theorem takeWhile_all {α : Type} (p : α → Bool) :
    ∀ l : List α, (l.takeWhile p).all p = true
  | [] => rfl
  | a :: t => by
    by_cases h : p a = true
    · simp [List.takeWhile, h, takeWhile_all p t]
    · simp [List.takeWhile, h]

theorem string_mk_ne_empty (ds : List Char) (hne : ds ≠ []) : String.mk ds ≠ "" := by
  intro hc
  exact hne (congrArg String.data hc)

theorem tryBranches_sound :
    ∀ (brs : List String) (l : List Char) (b n : String),
      tryBranches brs l = some (b, n) →
      b ∈ brs ∧ n ≠ "" ∧ n.data.all Char.isDigit = true
  | [], l, b, n => by simp [tryBranches]
  | b0 :: rest, l, b, n => by
    intro hm
    rw [tryBranches] at hm
    by_cases hp : b0.toList.isPrefixOf l = true
    · rw [if_pos hp] at hm
      by_cases hd : ((l.drop b0.length).takeWhile Char.isDigit).isEmpty = true
      · rw [if_pos hd] at hm
        have hs := tryBranches_sound rest l b n hm
        exact ⟨List.mem_cons_of_mem b0 hs.1, hs.2⟩
      · rw [if_neg hd] at hm
        have hb : b0 = b := congrArg Prod.fst (Option.some.inj hm)
        have hn : String.mk ((l.drop b0.length).takeWhile Char.isDigit) = n :=
          congrArg Prod.snd (Option.some.inj hm)
        subst hb
        rw [← hn]
        refine ⟨List.mem_cons_self _ _, ?_, ?_⟩
        · exact string_mk_ne_empty _ (by simpa using hd)
        · exact takeWhile_all Char.isDigit _
    · rw [if_neg hp] at hm
      have hs := tryBranches_sound rest l b n hm
      exact ⟨List.mem_cons_of_mem b0 hs.1, hs.2⟩

theorem matchFrom_sound :
    ∀ (l : List Char) (b n : String),
      matchFrom l = some (b, n) →
      b ∈ ["cs", "me", "ce", "ee", "ece"] ∧ n ≠ "" ∧ n.data.all Char.isDigit = true
  | [], b, n => by simp [matchFrom]
  | c :: t, b, n => by
    intro hm
    rw [matchFrom] at hm
    by_cases hp : ("ns_noc25_".toList).isPrefixOf (c :: t) = true
    · rw [if_pos hp] at hm
      cases htb : tryBranches ["cs", "me", "ce", "ee", "ece"] ((c :: t).drop 9) with
      | some r =>
        rw [htb] at hm
        have hr : r = (b, n) := Option.some.inj hm
        subst hr
        exact tryBranches_sound _ _ b n htb
      | none =>
        rw [htb] at hm
        exact matchFrom_sound t b n hm
    · rw [if_neg hp] at hm
      exact matchFrom_sound t b n hm

/-- Claim C4 counterexample: separator styles between branch code and number
are not tolerated by either resolver variant, and a bare branch+number
filename does not resolve at all — contradicting "regardless of the
separator style" and the claimed four-pattern cascade. -/
theorem filenameResolver_separator_cex :
    resolveCourseId "cs52.csv" = none
    ∧ resolveCourseId "ns_noc25_cs-52.csv" = none
    ∧ resolveCourseId "ns_noc25_cs_52.csv" = none
    ∧ resolveCourseId2 "cs52.csv" = none
    ∧ resolveCourseId2 "ns_noc25_cs_52.csv" = none := by
  decide

/-- Claim C4 (amended): each resolver variant applies one single fixed
pattern, not a cascade. The cited variant requires the literal
(case-insensitive) "ns_noc25_" immediately followed by one of the five
branch codes immediately followed by digits, and then yields
"noc25-{branch}{number}"; every successful match produces a known branch
code and a non-empty digit string. Case variation is tolerated; separator
variation is not. -/
theorem filenameResolver_single_pattern :
    (∀ (f b n : String), courseMatch f = some (b, n) →
      b ∈ ["cs", "me", "ce", "ee", "ece"] ∧ n ≠ "" ∧ n.data.all Char.isDigit = true ∧
      resolveCourseId f = some ("noc25-" ++ b ++ n)) ∧
    resolveCourseId "ns_noc25_cs52.csv" = some "noc25-cs52" ∧
    resolveCourseId "NS_NOC25_CS52.CSV" = some "noc25-cs52" ∧
    resolveCourseId "ns_noc25_ce38_week.csv" = some "noc25-ce38" ∧
    resolveCourseId2 "ns_noc25_cs52.csv" = some "noc25-cs52" ∧
    resolveCourseId2 "noc25-ce38_week.csv" = some "noc25-ce38" := by
  refine ⟨?_, by decide, by decide, by decide, by decide, by decide⟩
  intro f b n hm
  have hs := matchFrom_sound ((lowerStr f).toList) b n hm
  exact ⟨hs.1, hs.2.1, hs.2.2, by simp [resolveCourseId, hm]⟩

/-- Claim C4 (amended) witness at the canonical filename. -/
theorem filenameResolver_single_pattern_witness :
    ("cs" ∈ ["cs", "me", "ce", "ee", "ece"] ∧ ("52" : String) ≠ ""
      ∧ "52".data.all Char.isDigit = true
      ∧ resolveCourseId "ns_noc25_cs52.csv" = some ("noc25-" ++ "cs" ++ "52")) :=
  filenameResolver_single_pattern.1 "ns_noc25_cs52.csv" "cs" "52" (by decide)

end NptelBackend
